import Mathlib

/-!
Verification development for the recommendation and social-graph subsystem of a
social-networking web application.

The embedding covers:
* the TTL recommendation cache and its invalidation hooks
  (`src/src/services/recommendationService.ts`),
* the social-graph service (`followUser`, `unfollowUser`, `getFriendsOfFriends`,
  `getSocialDistance` from the Neo4j service module), where the parameterized
  Cypher queries are embedded as functions over an explicit edge list,
* the multi-factor post ranking (`rankPosts`) and the trending scorer.

Timestamps are modelled as integers (milliseconds since the epoch, as produced
by `Date.now()` / `Date.getTime()`); numeric scores are modelled as real
numbers.  External store responses (Neo4j creator lists, Firestore post query
results) are supplied through an explicit environment, with `Except` capturing
a query that raises.
-/

namespace SocialApp

/-- Comment sub-document of a post (`src/src/types/Post.ts`). -/
structure Comment where
  id : String
  content : String
  authorId : String
  authorName : String
  authorPhotoURL : Option String
  createdAt : Int
deriving DecidableEq, Repr

/-- Post record from the document store (`src/src/types/Post.ts`). -/
structure Post where
  id : String
  content : String
  authorId : String
  authorName : String
  authorPhotoURL : Option String
  createdAt : Int
  likes : List String
  comments : List Comment
deriving DecidableEq, Repr

/-- A post augmented with recommendation metadata
(`RecommendedPost extends Post` in `recommendationService.ts`). -/
structure RecommendedPost extends Post where
  recommendationScore : ℝ
  recommendationReason : String

/-- Recommendation source tags (`RecommendationSource` union type). -/
inductive RecommendationSource where
  | social_network
  | trending
  | interest_based
  | chronological
deriving DecidableEq, Repr

/-- String form of a source tag, as it appears inside cache keys. -/
def sourceTag : RecommendationSource → String
  | .social_network => "social_network"
  | .trending => "trending"
  | .interest_based => "interest_based"
  | .chronological => "chronological"

/-- One cache entry (`RecommendationCache` interface). -/
structure RecommendationCache where
  data : List RecommendedPost
  timestamp : Int
  userId : String
  source : RecommendationSource

/-- The cache map `Map<string, RecommendationCache>`, modelled as an
association list from keys to entries. -/
abbrev CacheMap := List (String × RecommendationCache)

/-- A cache-invalidation callback, `(userId) => void` acting on the cache. -/
abbrev Cb := String → CacheMap → CacheMap

/-- Recommended-creator record returned by the graph service:
`{id, score, reason}`. -/
structure Creator where
  id : String
  score : ℝ
  reason : String

/-- `CACHE_TTL = 15 * 60 * 1000` milliseconds. -/
def CACHE_TTL : Int := 15 * 60 * 1000

/-- `MAX_CACHED_POSTS = 50`. -/
def MAX_CACHED_POSTS : Nat := 50

/-- Cache key `userId:source:count` (`getCacheKey`). -/
def getCacheKey (userId : String) (source : RecommendationSource) (count : Nat) : String :=
  let tag := sourceTag source
  s!"{userId}:{tag}:{count}"

/-- `isCacheValid`: the entry is valid while `now - cache.timestamp < CACHE_TTL`. -/
def isCacheValid (now : Int) (cache : RecommendationCache) : Bool :=
  decide (now - cache.timestamp < CACHE_TTL)

/-- `Map.get`: the entry stored under a key, if any. -/
def mapGet (st : CacheMap) (k : String) : Option RecommendationCache :=
  (st.find? (fun kv => kv.1 == k)).map (fun kv => kv.2)

/-- `Map.set`: store an entry under a key, replacing any previous entry. -/
def mapSet (st : CacheMap) (k : String) (v : RecommendationCache) : CacheMap :=
  (k, v) :: st.filter (fun kv => !(kv.1 == k))

/-- `invalidateUserCache`: delete every cache entry whose owning user matches. -/
def invalidateUserCache (userId : String) (st : CacheMap) : CacheMap :=
  st.filter (fun kv => !(kv.2.userId == userId))

/-- The process-wide registry of invalidation callbacks.  In the repository the
only registration is performed by the `RecommendationService` constructor,
which registers `invalidateUserCache`. -/
def cacheInvalidationCallbacks : List Cb :=
  [fun userId st => invalidateUserCache userId st]

/-- State of the graph store: user nodes and directed FOLLOWS edges. -/
structure GraphDB where
  users : List String
  follows : List (String × String)
deriving DecidableEq, Repr

/-- Existence of a directed FOLLOWS edge. -/
def followsB (g : GraphDB) (a b : String) : Bool :=
  decide ((a, b) ∈ g.follows)

/-- Users directly followed by `u` (with multiplicity of stored edges). -/
def followees (g : GraphDB) (u : String) : List String :=
  (g.follows.filter (fun e => decide (e.1 = u))).map (fun e => e.2)

/-- `MERGE (u:User {id: ...})`: idempotent node upsert. -/
def mergeUser (db : GraphDB) (u : String) : GraphDB :=
  if u ∈ db.users then db else { db with users := db.users ++ [u] }

/-- The callback loop shared by `followUser` and `unfollowUser`:
`cacheInvalidationCallbacks.forEach(cb => { cb(followerId); cb(followingId); })`. -/
def applyCallbacks (cbs : List Cb) (a b : String) (st : CacheMap) : CacheMap :=
  cbs.foldl (fun s cb => cb b (cb a s)) st

/-- Invocation trace of the callback loop: for each registered callback index
`i` (in registration order), one call with the follower id and one call with
the followee id. -/
def callbackInvocations (n : Nat) (a b : String) : List (Nat × String) :=
  (List.range n).flatMap (fun i => [(i, a), (i, b)])

/-- Result of a graph mutation: the updated graph, the updated cache after the
invalidation callbacks ran, the boolean the method returns, and the trace of
callback invocations. -/
structure MutationResult where
  db : GraphDB
  cache : CacheMap
  produced : Bool
  calls : List (Nat × String)

/-- `followUser`: merge both user nodes, merge the FOLLOWS edge, then invoke
every registered callback with the follower id and the followee id.  The
`MERGE ... RETURN r` query always yields one record, so the method returns
`true`. -/
def followUser (cbs : List Cb) (followerId followingId : String)
    (db : GraphDB) (st : CacheMap) : MutationResult :=
  let db1 := mergeUser (mergeUser db followerId) followingId
  let db2 :=
    if followsB db1 followerId followingId then db1
    else { db1 with follows := db1.follows ++ [(followerId, followingId)] }
  { db := db2
    cache := applyCallbacks cbs followerId followingId st
    produced := true
    calls := callbackInvocations cbs.length followerId followingId }

/-- `unfollowUser`: delete the matching edge if present, invoke the callbacks
regardless, and return whether a matching edge was found. -/
def unfollowUser (cbs : List Cb) (followerId followingId : String)
    (db : GraphDB) (st : CacheMap) : MutationResult :=
  let existed := followsB db followerId followingId
  { db := { db with
      follows := db.follows.filter (fun e => !(e == (followerId, followingId))) }
    cache := applyCallbacks cbs followerId followingId st
    produced := existed
    calls := callbackInvocations cbs.length followerId followingId }

/-- Result row of the friends-of-friends query: target id and the count of
distinct intermediate connectors. -/
structure FofEntry where
  id : String
  mutualFriends : Nat
deriving DecidableEq, Repr

/-- Distinct intermediate connectors for target `x`: users followed by `u`
that follow `x` (`COUNT(DISTINCT friend)` in the Cypher query). -/
def connectors (g : GraphDB) (u x : String) : List String :=
  ((followees g u).filter (fun f => followsB g f x)).dedup

/-- Candidate targets of the friends-of-friends query: nodes reachable by a
two-hop FOLLOWS traversal from `u`, excluding nodes `u` already follows and
excluding `u` itself. -/
def fofCandidates (g : GraphDB) (u : String) : List String :=
  (((followees g u).flatMap (fun f => followees g f)).filter
    (fun x => !(followsB g u x) && !(decide (x = u)))).dedup

/-- `getFriendsOfFriends`: embedding of the two-hop Cypher query — group the
candidates, score each by its count of distinct connectors, order by that
count descending, limit to 10 rows. -/
def getFriendsOfFriends (g : GraphDB) (u : String) : List FofEntry :=
  (((fofCandidates g u).map
      (fun x => FofEntry.mk x (connectors g u x).length)).mergeSort
    (fun a b => decide (b.mutualFriends ≤ a.mutualFriends))).take 10

/-- Nodes reachable from the elements of `xs` by following one FOLLOWS edge. -/
def stepOnce (g : GraphDB) (xs : List String) : List String :=
  (xs.flatMap (fun x => followees g x)).dedup

/-- Nodes reachable from `a` by a walk of exactly `n` FOLLOWS edges. -/
def reachSteps (g : GraphDB) (a : String) : Nat → List String
  | 0 => [a]
  | n + 1 => stepOnce g (reachSteps g a n)

/-- Existence of a directed walk of length `n` from `a` to `b`. -/
def hasWalk (g : GraphDB) (a b : String) : Nat → Prop
  | 0 => a = b
  | n + 1 => ∃ c, hasWalk g a c n ∧ followsB g c b = true

/-- `getSocialDistance`: returns the distance (`⊤` encodes the `Infinity`
sentinel) together with the number of store queries the call issues.
Identical identifiers short-circuit to `0` before any session is opened;
otherwise the embedded `shortestPath((a)-[:FOLLOWS*..3]->(b))` query returns
the least walk length in `1..3`, or no record if none exists. -/
def getSocialDistance (g : GraphDB) (a b : String) : ℕ∞ × Nat :=
  if a = b then (0, 0)
  else
    let d : ℕ∞ :=
      if b ∈ reachSteps g a 1 then 1
      else if b ∈ reachSteps g a 2 then 2
      else if b ∈ reachSteps g a 3 then 3
      else ⊤
    (d, 1)

/-- Hours elapsed since a post's creation, from millisecond timestamps:
`(now - createdAt) / (1000 * 60 * 60)`. -/
noncomputable def hoursSince (now : Int) (post : Post) : ℝ :=
  ((now - post.createdAt : Int) : ℝ) / (1000 * 60 * 60)

/-- The creator-score map built by `rankPosts` via `Map.set` over the creator
list (a later entry with the same id overwrites an earlier one). -/
def creatorScoreMap (creators : List Creator) (authorId : String) :
    Option (ℝ × String) :=
  creators.foldl
    (fun acc c => if c.id = authorId then some (c.score, c.reason) else acc) none

/-- Per-post scoring step of `rankPosts`: base score and reason from the
creator map (defaulting to `1` / `"default"`), plus the engagement term
`likes * 1 + comments * 1.5`, plus the recency term
`10 / (1 + ln (1 + hoursSinceCreation))`; the reason is overwritten to
`"high_engagement"` when the engagement term exceeds 10 and the reason is
still `"default"`. -/
noncomputable def scorePost (now : Int) (creators : List Creator) (post : Post) :
    RecommendedPost :=
  let creatorInfo := (creatorScoreMap creators post.authorId).getD (1, "default")
  let likesCount := post.likes.length
  let commentsCount := post.comments.length
  let engagementScore : ℝ := (likesCount : ℝ) * 1 + (commentsCount : ℝ) * 1.5
  let recencyScore : ℝ := 10 / (1 + Real.log (1 + hoursSince now post))
  let score := creatorInfo.1 + engagementScore + recencyScore
  let reason :=
    if engagementScore > 10 ∧ creatorInfo.2 = "default" then "high_engagement"
    else creatorInfo.2
  { toPost := post, recommendationScore := score, recommendationReason := reason }

/-- `rankPosts`: score every candidate post, then sort by final score
descending (JavaScript `sort((a, b) => b.score - a.score)`, a stable sort). -/
noncomputable def rankPosts (now : Int) (posts : List Post)
    (recommendedCreators : List Creator) : List RecommendedPost :=
  (posts.map (scorePost now recommendedCreators)).mergeSort
    (fun a b => decide (b.recommendationScore ≤ a.recommendationScore))

/-- Trending score: `(likes + comments * 1.5) / hours ^ 0.8` when the post's
age in hours is positive, and the raw engagement sum otherwise (the
division-by-zero guard for brand-new posts). -/
noncomputable def trendingScore (now : Int) (post : Post) : ℝ :=
  let likesCount := post.likes.length
  let commentsCount := post.comments.length
  let hoursSinceCreation := hoursSince now post
  if hoursSinceCreation > 0 then
    ((likesCount : ℝ) + (commentsCount : ℝ) * 1.5) / hoursSinceCreation ^ (0.8 : ℝ)
  else
    (likesCount : ℝ) + (commentsCount : ℝ) * 1.5

/-- Trending scoring step: augment a post with its trending score and the
`"trending"` reason tag. -/
noncomputable def scoreTrendingPost (now : Int) (post : Post) : RecommendedPost :=
  { toPost := post
    recommendationScore := trendingScore now post
    recommendationReason := "trending" }

/-- Responses of the external stores for one computation: the Neo4j
recommended-creator query, the Firestore posts-by-creators query, and the
Firestore recent-posts query used by the trending feed.  `Except.error`
models a query that raises. -/
structure FetchEnv where
  creators : Except String (List Creator)
  creatorPosts : Except String (List Post)
  trendingFetch : Except String (List Post)

/-- The shared cache-hit logic of `getRecommendedPosts` and
`getTrendingPosts`: on a valid entry, either return the cached slice directly
(no exclusions) or return the exclusion-filtered slice when at least
`count / 2` posts survive the filter; `none` means fall through to a
recompute. -/
def cacheHitResult (cached? : Option RecommendationCache) (now : Int)
    (count : Nat) (excludePostIds : List String) : Option (List RecommendedPost) :=
  match cached? with
  | some cached =>
    if isCacheValid now cached then
      if 0 < excludePostIds.length then
        let filteredResults :=
          cached.data.filter (fun post => !(excludePostIds.contains post.id))
        if (count : ℚ) / 2 ≤ (filteredResults.length : ℚ) then
          some (filteredResults.take count)
        else none
      else some (cached.data.take count)
    else none
  | none => none

/-- The StrictMode short-circuit shared by both getters: with
`skipNetworkRequests` set, return whatever valid cached data exists (filtered,
without the threshold check) or the empty list. -/
def strictModeResult (cached? : Option RecommendationCache) (now : Int)
    (count : Nat) (excludePostIds : List String) : List RecommendedPost :=
  match cached? with
  | some cached =>
    if isCacheValid now cached then
      if 0 < excludePostIds.length then
        (cached.data.filter (fun post => !(excludePostIds.contains post.id))).take count
      else cached.data.take count
    else []
  | none => []

/-- The fresh-compute path of `getTrendingPosts`: fetch the most recent
posts, drop excluded ids, score each by the trending formula, sort
descending, cache the top `MAX_CACHED_POSTS` under owner `"trending"`, and
return the top `count`.  A raising fetch is caught and yields the empty list
with the cache untouched. -/
noncomputable def trendingRecompute (env : FetchEnv) (now : Int) (st : CacheMap)
    (count : Nat) (excludePostIds : List String) : List RecommendedPost × CacheMap :=
  match env.trendingFetch with
  | .error _ => ([], st)
  | .ok rawPosts =>
    let posts :=
      if 0 < excludePostIds.length then
        rawPosts.filter (fun post => !(excludePostIds.contains post.id))
      else rawPosts
    let sortedPosts :=
      (posts.map (scoreTrendingPost now)).mergeSort
        (fun a b => decide (b.recommendationScore ≤ a.recommendationScore))
    let st2 := mapSet st (getCacheKey "trending" .trending count)
      { data := sortedPosts.take MAX_CACHED_POSTS
        timestamp := now
        userId := "trending"
        source := .trending }
    (sortedPosts.take count, st2)

/-- `getTrendingPosts`: cache key `trending:trending:count`; direct or
filtered hit on a valid entry, StrictMode short-circuit, and otherwise the
fresh-compute path. -/
noncomputable def getTrendingPosts (env : FetchEnv) (now : Int) (st : CacheMap)
    (count : Nat) (excludePostIds : List String) (skipNetworkRequests : Bool) :
    List RecommendedPost × CacheMap :=
  let cached? := mapGet st (getCacheKey "trending" .trending count)
  match cacheHitResult cached? now count excludePostIds with
  | some r => (r, st)
  | none =>
    if skipNetworkRequests then (strictModeResult cached? now count excludePostIds, st)
    else trendingRecompute env now st count excludePostIds

/-- The trending fallback used by the recompute path of
`getRecommendedPosts` (both for zero creators and for a caught error): fetch
the trending feed, then cache its result under the caller's social-network
cache key with the caller as owning user. -/
noncomputable def trendingFallback (env : FetchEnv) (now : Int) (st : CacheMap)
    (userId : String) (count : Nat) (excludePostIds : List String)
    (skipNetworkRequests : Bool) : List RecommendedPost × CacheMap :=
  let p := getTrendingPosts env now st count excludePostIds skipNetworkRequests
  let st2 := mapSet p.2 (getCacheKey userId .social_network count)
    { data := p.1.take MAX_CACHED_POSTS
      timestamp := now
      userId := userId
      source := .social_network }
  (p.1, st2)

/-- The recompute path of `getRecommendedPosts` (reached on a cache miss):
query the graph for recommended creators; with zero creators, or when either
store query raises, fall back to the trending feed and cache it under the
social-network key; otherwise fetch the creators' recent posts, drop excluded
ids, rank, cache the top `MAX_CACHED_POSTS`, and return the top `count`. -/
noncomputable def freshCompute (env : FetchEnv) (now : Int) (st : CacheMap)
    (userId : String) (count : Nat) (excludePostIds : List String)
    (skipNetworkRequests : Bool) : List RecommendedPost × CacheMap :=
  match env.creators with
  | .error _ => trendingFallback env now st userId count excludePostIds skipNetworkRequests
  | .ok recommendedCreators =>
    let creatorIds := recommendedCreators.map (fun c => c.id)
    if creatorIds.length = 0 then
      trendingFallback env now st userId count excludePostIds skipNetworkRequests
    else
      match env.creatorPosts with
      | .error _ =>
        trendingFallback env now st userId count excludePostIds skipNetworkRequests
      | .ok rawPosts =>
        let posts :=
          if 0 < excludePostIds.length then
            rawPosts.filter (fun post => !(excludePostIds.contains post.id))
          else rawPosts
        let scoredPosts := rankPosts now posts recommendedCreators
        let st2 := mapSet st (getCacheKey userId .social_network count)
          { data := scoredPosts.take MAX_CACHED_POSTS
            timestamp := now
            userId := userId
            source := .social_network }
        (scoredPosts.take count, st2)

/-- `getRecommendedPosts`: with no user id, delegate to the trending feed;
otherwise consult the cache under `userId:social_network:count` (direct hit,
filtered hit, or fall-through), honour the StrictMode short-circuit, and
otherwise recompute. -/
noncomputable def getRecommendedPosts (env : FetchEnv) (now : Int) (st : CacheMap)
    (userId : String) (count : Nat) (excludePostIds : List String)
    (skipNetworkRequests : Bool) : List RecommendedPost × CacheMap :=
  if userId = "" then getTrendingPosts env now st count excludePostIds skipNetworkRequests
  else
    let cacheKey := getCacheKey userId .social_network count
    let cached? := mapGet st cacheKey
    match cacheHitResult cached? now count excludePostIds with
    | some r => (r, st)
    | none =>
      if skipNetworkRequests then (strictModeResult cached? now count excludePostIds, st)
      else freshCompute env now st userId count excludePostIds skipNetworkRequests

/-- `preloadCache`: check for valid social and trending entries (both with
count 10), then load the trending feed if needed and afterwards the
personalized feed if needed. -/
noncomputable def preloadCache (env : FetchEnv) (now : Int) (st : CacheMap)
    (userId : String) : CacheMap :=
  if userId = "" then st
  else
    let socialCacheKey := getCacheKey userId .social_network 10
    let trendingCacheKey := getCacheKey "trending" .trending 10
    let hasSocialCache :=
      match mapGet st socialCacheKey with
      | some c => isCacheValid now c
      | none => false
    let hasTrendingCache :=
      match mapGet st trendingCacheKey with
      | some c => isCacheValid now c
      | none => false
    let st1 := if !hasTrendingCache then (getTrendingPosts env now st 10 [] false).2 else st
    let st2 :=
      if !hasSocialCache then (getRecommendedPosts env now st1 userId 10 [] false).2 else st1
    st2

/-! Concrete fixtures used to instantiate the theorems below. -/

/-- An environment in which every store query succeeds with an empty result. -/
def emptyEnv : FetchEnv := ⟨.ok [], .ok [], .ok []⟩

/-- A sample post created at time 0 with one like and no comments. -/
def examplePost : Post :=
  { id := "p0", content := "hello", authorId := "author0", authorName := "A"
    authorPhotoURL := none, createdAt := 0, likes := ["liker1"], comments := [] }

/-- A sample post created one hour before time 0. -/
def examplePostOld : Post :=
  { id := "p1", content := "old", authorId := "author0", authorName := "A"
    authorPhotoURL := none, createdAt := -3600000, likes := ["liker1"], comments := [] }

/-- A cached scored post with a given id. -/
def cachedPost (i : String) : RecommendedPost :=
  { id := i, content := "", authorId := "", authorName := ""
    authorPhotoURL := none, createdAt := 0, likes := [], comments := []
    recommendationScore := 0, recommendationReason := "trending" }

/-- A cache entry owned by user `"u"`, captured at time 0, holding four posts. -/
def exSocialCache : RecommendationCache :=
  { data := [cachedPost "c1", cachedPost "c2", cachedPost "c3", cachedPost "c4"]
    timestamp := 0, userId := "u", source := .social_network }

/-- A trending cache entry captured at time 0. -/
def exTrendingCache : RecommendationCache :=
  { data := [cachedPost "t1"], timestamp := 0, userId := "trending", source := .trending }

/-- A cache holding the social entry for `"u"` and the trending entry. -/
def exStBoth : CacheMap :=
  [(getCacheKey "u" .social_network 10, exSocialCache),
   (getCacheKey "trending" .trending 10, exTrendingCache)]

/-- The cache state produced by a creator-less first call of
`getRecommendedPosts` on an empty cache: the trending result (empty here) is
cached both under the trending key and under the caller's social-network key,
at capture time 0. -/
def fallbackCachedSt : CacheMap :=
  [(getCacheKey "u" .social_network 10,
    { data := [], timestamp := 0, userId := "u", source := .social_network }),
   (getCacheKey "trending" .trending 10,
    { data := [], timestamp := 0, userId := "trending", source := .trending })]

/-- A three-edge follow chain used to instantiate the graph theorems. -/
def exChain : GraphDB := { users := [], follows := [("a", "b"), ("b", "c"), ("c", "d")] }

/-- The trending-fetch environment holding one sample post. -/
def trendEnv : FetchEnv := ⟨.ok [], .ok [], .ok [examplePost]⟩

/-! Helper lemmas about the cache map and the cache lookups. -/

lemma mem_invalidateUserCache {u : String} {st : CacheMap} {k : String}
    {c : RecommendationCache} :
    (k, c) ∈ invalidateUserCache u st ↔ (k, c) ∈ st ∧ c.userId ≠ u := by
  simp [invalidateUserCache, List.mem_filter, Bool.not_eq_true', beq_eq_false_iff_ne]

lemma mapGet_mapSet_self {st : CacheMap} {k : String} {v : RecommendationCache} :
    mapGet (mapSet st k v) k = some v := by
  unfold mapGet mapSet
  rw [List.find?_cons]
  simp

lemma getRecommendedPosts_hit {env : FetchEnv} {now : Int} {st : CacheMap}
    {userId : String} {count : Nat} {c : RecommendationCache} {sk : Bool}
    (h0 : userId ≠ "")
    (h1 : mapGet st (getCacheKey userId .social_network count) = some c)
    (h2 : isCacheValid now c = true) :
    getRecommendedPosts env now st userId count [] sk = (c.data.take count, st) := by
  simp [getRecommendedPosts, cacheHitResult, h0, h1, h2]

lemma getRecommendedPosts_expired {env : FetchEnv} {now : Int} {st : CacheMap}
    {userId : String} {count : Nat} {c : RecommendationCache}
    (h0 : userId ≠ "")
    (h1 : mapGet st (getCacheKey userId .social_network count) = some c)
    (h2 : isCacheValid now c = false) :
    getRecommendedPosts env now st userId count [] false =
      freshCompute env now st userId count [] false := by
  simp [getRecommendedPosts, cacheHitResult, h0, h1, h2]

lemma getTrendingPosts_hit {env : FetchEnv} {now : Int} {st : CacheMap}
    {count : Nat} {c : RecommendationCache} {sk : Bool}
    (h1 : mapGet st (getCacheKey "trending" .trending count) = some c)
    (h2 : isCacheValid now c = true) :
    getTrendingPosts env now st count [] sk = (c.data.take count, st) := by
  simp [getTrendingPosts, cacheHitResult, h1, h2]

lemma getTrendingPosts_expired {env : FetchEnv} {now : Int} {st : CacheMap}
    {count : Nat} {c : RecommendationCache}
    (h1 : mapGet st (getCacheKey "trending" .trending count) = some c)
    (h2 : isCacheValid now c = false) :
    getTrendingPosts env now st count [] false = trendingRecompute env now st count [] := by
  simp [getTrendingPosts, cacheHitResult, h1, h2]

lemma getRecommendedPosts_miss {env : FetchEnv} {now : Int} {st : CacheMap}
    {userId : String} {count : Nat} {excludePostIds : List String}
    (h0 : userId ≠ "")
    (h1 : mapGet st (getCacheKey userId .social_network count) = none) :
    getRecommendedPosts env now st userId count excludePostIds false =
      freshCompute env now st userId count excludePostIds false := by
  simp [getRecommendedPosts, cacheHitResult, h0, h1]

lemma getTrendingPosts_miss {env : FetchEnv} {now : Int} {st : CacheMap}
    {count : Nat} {excludePostIds : List String}
    (h1 : mapGet st (getCacheKey "trending" .trending count) = none) :
    getTrendingPosts env now st count excludePostIds false =
      trendingRecompute env now st count excludePostIds := by
  simp [getTrendingPosts, cacheHitResult, h1]

lemma getRecommendedPosts_below_threshold {env : FetchEnv} {now : Int}
    {st : CacheMap} {userId : String} {count : Nat} {excludePostIds : List String}
    {c : RecommendationCache}
    (h0 : userId ≠ "")
    (h1 : mapGet st (getCacheKey userId .social_network count) = some c)
    (h2 : isCacheValid now c = true)
    (h3 : 0 < excludePostIds.length)
    (h4 : (((c.data.filter (fun post => !(excludePostIds.contains post.id))).length : ℚ)
      < (count : ℚ) / 2)) :
    getRecommendedPosts env now st userId count excludePostIds false =
      freshCompute env now st userId count excludePostIds false := by
  have hn : ¬ ((count : ℚ) / 2 ≤
      ((c.data.filter (fun post => !(decide (post.id ∈ excludePostIds)))).length : ℚ)) := by
    simpa [List.elem_eq_mem] using not_le.mpr h4
  simp [getRecommendedPosts, cacheHitResult, h0, h1, h2, h3, hn]

lemma getTrendingPosts_below_threshold {env : FetchEnv} {now : Int}
    {st : CacheMap} {count : Nat} {excludePostIds : List String}
    {c : RecommendationCache}
    (h1 : mapGet st (getCacheKey "trending" .trending count) = some c)
    (h2 : isCacheValid now c = true)
    (h3 : 0 < excludePostIds.length)
    (h4 : (((c.data.filter (fun post => !(excludePostIds.contains post.id))).length : ℚ)
      < (count : ℚ) / 2)) :
    getTrendingPosts env now st count excludePostIds false =
      trendingRecompute env now st count excludePostIds := by
  have hn : ¬ ((count : ℚ) / 2 ≤
      ((c.data.filter (fun post => !(decide (post.id ∈ excludePostIds)))).length : ℚ)) := by
    simpa [List.elem_eq_mem] using not_le.mpr h4
  simp [getTrendingPosts, cacheHitResult, h1, h2, h3, hn]

lemma freshCompute_no_creators {env : FetchEnv} {now : Int} {st : CacheMap}
    {userId : String} {count : Nat} {excludePostIds : List String} {sk : Bool}
    (h : env.creators = .ok []) :
    freshCompute env now st userId count excludePostIds sk =
      trendingFallback env now st userId count excludePostIds sk := by
  simp [freshCompute, h]

lemma freshCompute_creators_error {env : FetchEnv} {now : Int} {st : CacheMap}
    {userId : String} {count : Nat} {excludePostIds : List String} {sk : Bool}
    {m : String} (h : env.creators = .error m) :
    freshCompute env now st userId count excludePostIds sk =
      trendingFallback env now st userId count excludePostIds sk := by
  simp [freshCompute, h]

lemma freshCompute_posts_error {env : FetchEnv} {now : Int} {st : CacheMap}
    {userId : String} {count : Nat} {excludePostIds : List String} {sk : Bool}
    {cs : List Creator} {m : String}
    (hc : env.creators = .ok cs) (hne : cs ≠ []) (hp : env.creatorPosts = .error m) :
    freshCompute env now st userId count excludePostIds sk =
      trendingFallback env now st userId count excludePostIds sk := by
  simp [freshCompute, hc, hp, List.length_map, List.length_eq_zero, hne]

/-- C3: a cache entry captured at time `T` is valid for a read at time `now`
iff `now - T < 15` minutes, strictly: valid at `T + 14min59s`, invalid at
exactly `T + 15min` and at `T + 15min01s`; and this rule decides every cache
lookup: a valid entry short-circuits `getRecommendedPosts` and
`getTrendingPosts` while an expired one sends them to their recompute paths,
and `preloadCache` fetches nothing when both its entries are valid. -/
theorem cache_ttl_strict_and_applied :
    (∀ (now : Int) (c : RecommendationCache),
      isCacheValid now c = true ↔ now - c.timestamp < 15 * 60 * 1000) ∧
    (∀ c : RecommendationCache,
      isCacheValid (c.timestamp + 899000) c = true ∧
      isCacheValid (c.timestamp + 900000) c = false ∧
      isCacheValid (c.timestamp + 901000) c = false) ∧
    (∀ (env : FetchEnv) (now : Int) (st : CacheMap) (userId : String) (count : Nat)
      (c : RecommendationCache), userId ≠ "" →
      mapGet st (getCacheKey userId .social_network count) = some c →
      (isCacheValid now c = true →
        getRecommendedPosts env now st userId count [] false = (c.data.take count, st)) ∧
      (isCacheValid now c = false →
        getRecommendedPosts env now st userId count [] false =
          freshCompute env now st userId count [] false)) ∧
    (∀ (env : FetchEnv) (now : Int) (st : CacheMap) (count : Nat)
      (c : RecommendationCache),
      mapGet st (getCacheKey "trending" .trending count) = some c →
      (isCacheValid now c = true →
        getTrendingPosts env now st count [] false = (c.data.take count, st)) ∧
      (isCacheValid now c = false →
        getTrendingPosts env now st count [] false = trendingRecompute env now st count [])) ∧
    (∀ (env : FetchEnv) (now : Int) (st : CacheMap) (userId : String)
      (c1 c2 : RecommendationCache), userId ≠ "" →
      mapGet st (getCacheKey userId .social_network 10) = some c1 →
      isCacheValid now c1 = true →
      mapGet st (getCacheKey "trending" .trending 10) = some c2 →
      isCacheValid now c2 = true →
      preloadCache env now st userId = st) := by
  refine ⟨?_, ?_, ?_, ?_, ?_⟩
  · intro now c
    simp [isCacheValid, CACHE_TTL]
  · intro c
    refine ⟨?_, ?_, ?_⟩ <;> simp [isCacheValid, CACHE_TTL]
  · intro env now st userId count c h0 h1
    exact ⟨fun h2 => getRecommendedPosts_hit h0 h1 h2,
           fun h2 => getRecommendedPosts_expired h0 h1 h2⟩
  · intro env now st count c h1
    exact ⟨fun h2 => getTrendingPosts_hit h1 h2,
           fun h2 => getTrendingPosts_expired h1 h2⟩
  · intro env now st userId c1 c2 h0 h1 hv1 h2 hv2
    simp [preloadCache, h0, h1, h2, hv1, hv2]

/-- Witness for C3 at concrete inputs: the boundary reads on a concrete entry
captured at time 0, a concrete cache hit at `now = 899000`, and a no-op
preload when both entries are valid. -/
theorem cache_ttl_strict_and_applied_witness :
    isCacheValid 899000 exSocialCache = true ∧
    isCacheValid 900000 exSocialCache = false ∧
    isCacheValid 901000 exSocialCache = false ∧
    getRecommendedPosts emptyEnv 899000 exStBoth "u" 10 [] false =
      (exSocialCache.data.take 10, exStBoth) ∧
    preloadCache emptyEnv 899000 exStBoth "u" = exStBoth := by
  have h := cache_ttl_strict_and_applied
  have hb := h.2.1 exSocialCache
  have hget : mapGet exStBoth (getCacheKey "u" .social_network 10) = some exSocialCache := rfl
  have hgetT : mapGet exStBoth (getCacheKey "trending" .trending 10) = some exTrendingCache := rfl
  have hv : isCacheValid 899000 exSocialCache = true := by
    exact (h.1 899000 exSocialCache).mpr (by norm_num [exSocialCache])
  have hvT : isCacheValid 899000 exTrendingCache = true := by
    exact (h.1 899000 exTrendingCache).mpr (by norm_num [exTrendingCache])
  refine ⟨hv, ?_, ?_, ?_, ?_⟩
  · have h9 : (900000 : Int) = exSocialCache.timestamp + 900000 := by
      norm_num [exSocialCache]
    rw [h9]; exact (hb).2.1
  · have h9 : (901000 : Int) = exSocialCache.timestamp + 901000 := by
      norm_num [exSocialCache]
    rw [h9]; exact (hb).2.2
  · exact ((h.2.2.1 emptyEnv 899000 exStBoth "u" 10 exSocialCache (by decide) hget).1 hv)
  · exact h.2.2.2.2 emptyEnv 899000 exStBoth "u" exSocialCache exTrendingCache
      (by decide) hget hv hgetT hvT

/-- C9: `invalidateUserCache u` removes exactly the cache entries whose
owning-user field is `u` and keeps every other entry intact; in particular a
trending entry (owner `"trending"`) survives invalidation for any user other
than `"trending"`, and the entry freshly written by the trending recompute
path is indeed owned by the literal `"trending"`. -/
theorem invalidateUserCache_exact_frame :
    (∀ (u : String) (st : CacheMap) (k : String) (c : RecommendationCache),
      (k, c) ∈ invalidateUserCache u st ↔ (k, c) ∈ st ∧ c.userId ≠ u) ∧
    (∀ (u : String) (st : CacheMap) (k : String) (c : RecommendationCache),
      c.userId = "trending" → u ≠ "trending" → (k, c) ∈ st →
      (k, c) ∈ invalidateUserCache u st) ∧
    (∀ (env : FetchEnv) (now : Int) (st : CacheMap) (count : Nat)
      (excludePostIds : List String) (posts : List Post),
      env.trendingFetch = .ok posts →
      (mapGet (trendingRecompute env now st count excludePostIds).2
          (getCacheKey "trending" .trending count)).map (fun e => e.userId) =
        some "trending") := by
  refine ⟨?_, ?_, ?_⟩
  · intro u st k c
    exact mem_invalidateUserCache
  · intro u st k c hc hu hm
    exact mem_invalidateUserCache.mpr ⟨hm, by rw [hc]; exact fun h => hu h.symm⟩
  · intro env now st count excludePostIds posts hfetch
    simp only [trendingRecompute, hfetch]
    rw [mapGet_mapSet_self]
    rfl

/-- Witness for C9: invalidating user `"u"` on a concrete two-entry cache
keeps the trending entry and allows reconstructing both directions of the
membership characterisation. -/
theorem invalidateUserCache_exact_frame_witness :
    (getCacheKey "trending" .trending 10, exTrendingCache) ∈
      invalidateUserCache "u" exStBoth ∧
    ¬ (getCacheKey "u" .social_network 10, exSocialCache) ∈
      invalidateUserCache "u" exStBoth ∧
    (mapGet (trendingRecompute emptyEnv 0 [] 10 []).2
        (getCacheKey "trending" .trending 10)).map (fun e => e.userId) =
      some "trending" := by
  have h := invalidateUserCache_exact_frame
  refine ⟨?_, ?_, ?_⟩
  · exact h.2.1 "u" exStBoth _ exTrendingCache rfl (by decide)
      (by simp [exStBoth])
  · intro hmem
    have := (h.1 "u" exStBoth _ exSocialCache).mp hmem
    exact this.2 rfl
  · exact h.2.2 emptyEnv 0 [] 10 [] [] rfl

/-- C2: on a valid cache entry and a non-empty exclusion list,
`getRecommendedPosts` returns the exclusion-filtered cached list truncated to
`count` precisely when at least `count / 2` cached posts survive the filter,
and otherwise proceeds exactly as a cache miss (the recompute path). -/
theorem getRecommendedPosts_exclusion_threshold :
    ∀ (env : FetchEnv) (now : Int) (st : CacheMap) (userId : String) (count : Nat)
      (excludePostIds : List String) (c : RecommendationCache),
      userId ≠ "" →
      mapGet st (getCacheKey userId .social_network count) = some c →
      isCacheValid now c = true →
      0 < excludePostIds.length →
      (((count : ℚ) / 2 ≤
          ((c.data.filter (fun post => !(excludePostIds.contains post.id))).length : ℚ)) →
        getRecommendedPosts env now st userId count excludePostIds false =
          ((c.data.filter (fun post => !(excludePostIds.contains post.id))).take count, st)) ∧
      ((((c.data.filter (fun post => !(excludePostIds.contains post.id))).length : ℚ) <
          (count : ℚ) / 2) →
        getRecommendedPosts env now st userId count excludePostIds false =
          freshCompute env now st userId count excludePostIds false) := by
  intro env now st userId count excludePostIds c h0 h1 h2 h3
  constructor
  · intro hge
    have hge2 : ((count : ℚ) / 2 ≤
        ((c.data.filter (fun post => !(decide (post.id ∈ excludePostIds)))).length : ℚ)) := by
      simpa [List.elem_eq_mem] using hge
    simp [getRecommendedPosts, cacheHitResult, h0, h1, h2, h3, hge2]
  · intro hlt
    exact getRecommendedPosts_below_threshold h0 h1 h2 h3 hlt

/-- Witness for C2 — the below-threshold scenario from the specification: the
cache holds 4 scored posts, the caller requests `count = 10` and excludes 3 of
the cached posts, leaving 1 < 10 / 2, so the engine recomputes. -/
theorem getRecommendedPosts_exclusion_threshold_witness :
    getRecommendedPosts emptyEnv 0 exStBoth "u" 10 ["c1", "c2", "c3"] false =
      freshCompute emptyEnv 0 exStBoth "u" 10 ["c1", "c2", "c3"] false := by
  have h := (getRecommendedPosts_exclusion_threshold emptyEnv 0 exStBoth "u" 10
    ["c1", "c2", "c3"] exSocialCache (by decide) rfl (by decide) (by decide)).2
  apply h
  have hl : (exSocialCache.data.filter
      (fun post => !((["c1", "c2", "c3"] : List String).contains post.id))).length = 1 := rfl
  rw [hl]
  norm_num

/-- Counterexample for C5 as stated: after a creator-less call
`getRecommendedPosts(u, 10, [x])` cached the (empty) trending result, the
subsequent *identical* call — same non-empty `excludeIds` — is not a cache
hit: zero posts survive the exclusion filter, which is below the `count / 2`
threshold, so the call recomputes and rewrites the cache entry with a new
timestamp instead of leaving the cache untouched. -/
theorem freshCompute_identical_call_not_hit :
    (getRecommendedPosts emptyEnv 0 [] "u" 10 ["x"] false).2 = fallbackCachedSt ∧
    (mapGet (getRecommendedPosts emptyEnv 1 fallbackCachedSt "u" 10 ["x"] false).2
        (getCacheKey "u" .social_network 10)).map (fun c => c.timestamp) = some 1 ∧
    (mapGet fallbackCachedSt (getCacheKey "u" .social_network 10)).map
        (fun c => c.timestamp) = some 0 ∧
    (getRecommendedPosts emptyEnv 1 fallbackCachedSt "u" 10 ["x"] false).2 ≠
      fallbackCachedSt := by
  have hkk : ((getCacheKey "trending" .trending 10 ==
      getCacheKey "u" .social_network 10) = false) := by decide
  have hok : emptyEnv.creators = .ok [] := rfl
  have hfirst : (getRecommendedPosts emptyEnv 0 [] "u" 10 ["x"] false).2 =
      fallbackCachedSt := by
    rw [getRecommendedPosts_miss (by decide)
        (show mapGet ([] : CacheMap) (getCacheKey "u" .social_network 10) = none from rfl),
      freshCompute_no_creators hok]
    rw [show trendingFallback emptyEnv 0 [] "u" 10 ["x"] false =
        (let p := getTrendingPosts emptyEnv 0 [] 10 ["x"] false
         (p.1, mapSet p.2 (getCacheKey "u" .social_network 10)
           { data := p.1.take MAX_CACHED_POSTS, timestamp := 0, userId := "u"
             source := .social_network })) from rfl]
    rw [getTrendingPosts_miss
      (show mapGet ([] : CacheMap) (getCacheKey "trending" .trending 10) = none from rfl)]
    simp [trendingRecompute, emptyEnv, mapSet, List.mergeSort_nil,
      MAX_CACHED_POSTS, fallbackCachedSt, hkk]
  have hentry : mapGet fallbackCachedSt (getCacheKey "u" .social_network 10) =
      some { data := [], timestamp := 0, userId := "u", source := .social_network } := rfl
  have hsecond : getRecommendedPosts emptyEnv 1 fallbackCachedSt "u" 10 ["x"] false =
      trendingFallback emptyEnv 1 fallbackCachedSt "u" 10 ["x"] false := by
    rw [getRecommendedPosts_below_threshold (by decide) hentry (by decide) (by decide)
        (by norm_num), freshCompute_no_creators hok]
  have hts : (mapGet (trendingFallback emptyEnv 1 fallbackCachedSt "u" 10 ["x"] false).2
      (getCacheKey "u" .social_network 10)).map (fun c => c.timestamp) = some 1 := by
    show (mapGet (mapSet (getTrendingPosts emptyEnv 1 fallbackCachedSt 10 ["x"] false).2
        (getCacheKey "u" .social_network 10) _) _).map _ = _
    rw [mapGet_mapSet_self]
    rfl
  refine ⟨hfirst, ?_, rfl, ?_⟩
  · rw [hsecond]
    exact hts
  · intro heq
    have h1 : (mapGet (getRecommendedPosts emptyEnv 1 fallbackCachedSt "u" 10 ["x"] false).2
        (getCacheKey "u" .social_network 10)).map (fun c => c.timestamp) = some 1 := by
      rw [hsecond]; exact hts
    rw [heq] at h1
    simp [fallbackCachedSt, mapGet] at h1

/-- C5 (amended): with a non-empty user, a recompute in which the graph query
returns zero creators or in which a store query raises never propagates the
error: it returns the trending-feed result, stores that result (truncated to
`MAX_CACHED_POSTS`) under the social-network key with owner `userId` and
capture time `now`, and a subsequent call for the same user and count with
empty `excludeIds` within the TTL is a cache hit (it returns the cached slice
and leaves the cache unchanged). -/
theorem freshCompute_trending_fallback_caches :
    ∀ (env : FetchEnv) (now : Int) (st : CacheMap) (userId : String) (count : Nat)
      (excludePostIds : List String),
      userId ≠ "" →
      (env.creators = .ok [] ∨ (∃ m, env.creators = .error m) ∨
        (∃ cs m, env.creators = .ok cs ∧ cs ≠ [] ∧ env.creatorPosts = .error m)) →
      (freshCompute env now st userId count excludePostIds false).1 =
        (getTrendingPosts env now st count excludePostIds false).1 ∧
      mapGet (freshCompute env now st userId count excludePostIds false).2
          (getCacheKey userId .social_network count) =
        some { data := (getTrendingPosts env now st count
                          excludePostIds false).1.take MAX_CACHED_POSTS
               timestamp := now, userId := userId, source := .social_network } ∧
      (∀ (env2 : FetchEnv) (now2 : Int), now2 - now < CACHE_TTL →
        getRecommendedPosts env2 now2
            (freshCompute env now st userId count excludePostIds false).2
            userId count [] false =
          (((getTrendingPosts env now st count
              excludePostIds false).1.take MAX_CACHED_POSTS).take count,
            (freshCompute env now st userId count excludePostIds false).2)) := by
  intro env now st userId count excludePostIds h0 hcase
  have hfb : freshCompute env now st userId count excludePostIds false =
      trendingFallback env now st userId count excludePostIds false := by
    rcases hcase with h | ⟨m, h⟩ | ⟨cs, m, hc, hne, hp⟩
    · exact freshCompute_no_creators h
    · exact freshCompute_creators_error h
    · exact freshCompute_posts_error hc hne hp
  rw [hfb]
  have hget : mapGet (trendingFallback env now st userId count excludePostIds false).2
      (getCacheKey userId .social_network count) =
      some { data := (getTrendingPosts env now st count
                        excludePostIds false).1.take MAX_CACHED_POSTS
             timestamp := now, userId := userId, source := .social_network } := by
    show mapGet (mapSet (getTrendingPosts env now st count excludePostIds false).2
        (getCacheKey userId .social_network count) _) _ = _
    exact mapGet_mapSet_self
  refine ⟨rfl, hget, ?_⟩
  intro env2 now2 hlt
  exact getRecommendedPosts_hit h0 hget (by simpa [isCacheValid] using hlt)

/-- Witness for C5 at concrete inputs: a creator-less environment with an
empty store, a first call at time 0 and a second call (empty exclusions) at
time 1, which hits the cache. -/
theorem freshCompute_trending_fallback_caches_witness :
    (freshCompute emptyEnv 0 [] "u" 10 [] false).1 =
      (getTrendingPosts emptyEnv 0 [] 10 [] false).1 ∧
    getRecommendedPosts emptyEnv 1 (freshCompute emptyEnv 0 [] "u" 10 [] false).2
        "u" 10 [] false =
      (((getTrendingPosts emptyEnv 0 [] 10 [] false).1.take MAX_CACHED_POSTS).take 10,
        (freshCompute emptyEnv 0 [] "u" 10 [] false).2) := by
  have h := freshCompute_trending_fallback_caches emptyEnv 0 [] "u" 10 []
    (by decide) (Or.inl rfl)
  exact ⟨h.1, h.2.2 emptyEnv 1 (by decide)⟩

/-! Helper lemmas about the callback invocation trace. -/

lemma callbackInvocations_succ (n : Nat) (a b : String) :
    callbackInvocations (n + 1) a b = callbackInvocations n a b ++ [(n, a), (n, b)] := by
  simp [callbackInvocations, List.range_succ]

lemma mem_callbackInvocations {n : Nat} {a b : String} {p : Nat × String} :
    p ∈ callbackInvocations n a b ↔ ∃ i, i < n ∧ (p = (i, a) ∨ p = (i, b)) := by
  simp [callbackInvocations, List.mem_flatMap, List.mem_range]

lemma count_callbackInvocations {a b : String} (hab : a ≠ b) :
    ∀ n i, i < n →
      (callbackInvocations n a b).count (i, a) = 1 ∧
      (callbackInvocations n a b).count (i, b) = 1 := by
  intro n
  induction n with
  | zero => intro i hi; exact absurd hi (Nat.not_lt_zero i)
  | succ m ih =>
    intro i hi
    rw [callbackInvocations_succ]
    rcases Nat.lt_or_ge i m with hlt | hge
    · have hne : i ≠ m := Nat.ne_of_lt hlt
      have h0a : ((i, a) : Nat × String) ∉ [(m, a), (m, b)] := by
        intro hmem
        rcases List.mem_cons.mp hmem with he | hmem2
        · exact hne (congrArg Prod.fst he)
        · exact hne (congrArg Prod.fst (List.mem_singleton.mp hmem2))
      have h0b : ((i, b) : Nat × String) ∉ [(m, a), (m, b)] := by
        intro hmem
        rcases List.mem_cons.mp hmem with he | hmem2
        · exact hne (congrArg Prod.fst he)
        · exact hne (congrArg Prod.fst (List.mem_singleton.mp hmem2))
      constructor
      · rw [List.count_append, (ih i hlt).1, List.count_eq_zero_of_not_mem h0a]
      · rw [List.count_append, (ih i hlt).2, List.count_eq_zero_of_not_mem h0b]
    · have him : i = m := by omega
      subst him
      have h0a : ((i, a) : Nat × String) ∉ callbackInvocations i a b := by
        rw [mem_callbackInvocations]
        rintro ⟨j, hj, hja | hjb⟩
        · have hij : i = j := congrArg Prod.fst hja
          omega
        · have hij : i = j := congrArg Prod.fst hjb
          omega
      have h0b : ((i, b) : Nat × String) ∉ callbackInvocations i a b := by
        rw [mem_callbackInvocations]
        rintro ⟨j, hj, hja | hjb⟩
        · have hij : i = j := congrArg Prod.fst hja
          omega
        · have hij : i = j := congrArg Prod.fst hjb
          omega
      constructor
      · rw [List.count_append, List.count_eq_zero_of_not_mem h0a]
        simp [List.count_cons, Ne.symm hab]
      · rw [List.count_append, List.count_eq_zero_of_not_mem h0b]
        simp [List.count_cons, hab]

lemma count_callbackInvocations_self (a : String) :
    ∀ n i, i < n → (callbackInvocations n a a).count (i, a) = 2 := by
  intro n
  induction n with
  | zero => intro i hi; exact absurd hi (Nat.not_lt_zero i)
  | succ m ih =>
    intro i hi
    rw [callbackInvocations_succ]
    rcases Nat.lt_or_ge i m with hlt | hge
    · have hne : i ≠ m := Nat.ne_of_lt hlt
      have h0 : ((i, a) : Nat × String) ∉ [(m, a), (m, a)] := by
        intro hmem
        rcases List.mem_cons.mp hmem with he | hmem2
        · exact hne (congrArg Prod.fst he)
        · exact hne (congrArg Prod.fst (List.mem_singleton.mp hmem2))
      rw [List.count_append, ih i hlt, List.count_eq_zero_of_not_mem h0]
    · have him : i = m := by omega
      subst him
      have h0 : ((i, a) : Nat × String) ∉ callbackInvocations i a a := by
        rw [mem_callbackInvocations]
        rintro ⟨j, hj, hja | hjb⟩
        · have hij : i = j := congrArg Prod.fst hja
          omega
        · have hij : i = j := congrArg Prod.fst hjb
          omega
      rw [List.count_append, List.count_eq_zero_of_not_mem h0]
      simp [List.count_cons]

/-- C1 (amended): for distinct identifiers `a ≠ b`, a successful
`followUser(a, b)` invokes every registered invalidation callback exactly once
with `a` and exactly once with `b`, while for the self-pair `a = b` (the code
does not prevent self-follows) each registered callback is invoked exactly
twice with that identifier; `unfollowUser(a, b)` runs the identical callback
loop regardless of whether a matching edge existed (its return value only
reports edge existence); and — with the engine's registered callback being
`invalidateUserCache` — after `follow(a, b)` no cache entry owned by `a` or
by `b` remains, for every pair including self-pairs. -/
theorem followUser_callbacks_and_purge :
    ∀ (a b : String) (db : GraphDB) (st : CacheMap),
      (a ≠ b → ∀ (cbs : List Cb) (i : Nat), i < cbs.length →
        (followUser cbs a b db st).calls.count (i, a) = 1 ∧
        (followUser cbs a b db st).calls.count (i, b) = 1) ∧
      (a = b → ∀ (cbs : List Cb) (i : Nat), i < cbs.length →
        (followUser cbs a b db st).calls.count (i, a) = 2) ∧
      (∀ cbs : List Cb,
        (unfollowUser cbs a b db st).calls = (followUser cbs a b db st).calls ∧
        (unfollowUser cbs a b db st).cache = applyCallbacks cbs a b st ∧
        (unfollowUser cbs a b db st).produced = followsB db a b) ∧
      (∀ (k : String) (c : RecommendationCache),
        (k, c) ∈ (followUser cacheInvalidationCallbacks a b db st).cache →
        c.userId ≠ a ∧ c.userId ≠ b) := by
  intro a b db st
  refine ⟨?_, ?_, ?_, ?_⟩
  · intro hab cbs i hi
    exact count_callbackInvocations hab cbs.length i hi
  · intro hab cbs i hi
    subst hab
    exact count_callbackInvocations_self a cbs.length i hi
  · intro cbs
    exact ⟨rfl, rfl, rfl⟩
  · intro k c hmem
    have hc : (followUser cacheInvalidationCallbacks a b db st).cache =
        invalidateUserCache b (invalidateUserCache a st) := rfl
    rw [hc] at hmem
    have h1 := mem_invalidateUserCache.mp hmem
    have h2 := mem_invalidateUserCache.mp h1.1
    exact ⟨h2.2, h1.2⟩

/-- Counterexample for C1 as stated: for the self-pair `(u, u)` — the code
does not prevent self-follows — `followUser(u, u)` invokes the registered
callback twice with `u`, not exactly once. -/
theorem followUser_self_pair_double_invocation :
    (followUser cacheInvalidationCallbacks "u" "u" ⟨[], []⟩ []).calls.count
        ((0 : Nat), "u") = 2 ∧
    ¬ ((followUser cacheInvalidationCallbacks "u" "u" ⟨[], []⟩ []).calls.count
        ((0 : Nat), "u") = 1) := by
  constructor
  · decide
  · decide

/-- Witness for C1 on concrete inputs: one invocation with each id for the
pair `("a", "b")`, two invocations with `"u"` for the self-pair `("u", "u")`,
identical unfollow trace, and — over a concrete cache — a surviving entry
owned by neither party. -/
theorem followUser_callbacks_and_purge_witness :
    (followUser cacheInvalidationCallbacks "a" "b" ⟨[], []⟩ exStBoth).calls.count
        ((0 : Nat), "a") = 1 ∧
    (followUser cacheInvalidationCallbacks "a" "b" ⟨[], []⟩ exStBoth).calls.count
        ((0 : Nat), "b") = 1 ∧
    (followUser cacheInvalidationCallbacks "w" "w" ⟨[], []⟩ exStBoth).calls.count
        ((0 : Nat), "w") = 2 ∧
    (unfollowUser cacheInvalidationCallbacks "a" "b" ⟨[], []⟩ exStBoth).calls =
      (followUser cacheInvalidationCallbacks "a" "b" ⟨[], []⟩ exStBoth).calls ∧
    exTrendingCache.userId ≠ "a" ∧ exTrendingCache.userId ≠ "b" := by
  have h := followUser_callbacks_and_purge "a" "b" ⟨[], []⟩ exStBoth
  have hw := followUser_callbacks_and_purge "w" "w" ⟨[], []⟩ exStBoth
  have hlen : (0 : Nat) < cacheInvalidationCallbacks.length := by
    simp [cacheInvalidationCallbacks]
  refine ⟨(h.1 (by decide) cacheInvalidationCallbacks 0 hlen).1,
    (h.1 (by decide) cacheInvalidationCallbacks 0 hlen).2,
    hw.2.1 rfl cacheInvalidationCallbacks 0 hlen,
    (h.2.2.1 cacheInvalidationCallbacks).1, ?_⟩
  apply h.2.2.2 (getCacheKey "trending" .trending 10) exTrendingCache
  have hc : (followUser cacheInvalidationCallbacks "a" "b" ⟨[], []⟩ exStBoth).cache =
      invalidateUserCache "b" (invalidateUserCache "a" exStBoth) := rfl
  rw [hc]
  apply mem_invalidateUserCache.mpr
  refine ⟨mem_invalidateUserCache.mpr ⟨?_, by decide⟩, by decide⟩
  simp [exStBoth]

/-! Helper lemmas about sorting and the creator score map. -/

lemma pairwise_mergeSort_key {α β : Type} [LinearOrder β] (f : α → β) (l : List α) :
    (l.mergeSort (fun a b => decide (f b ≤ f a))).Pairwise (fun a b => f b ≤ f a) := by
  have htrans : ∀ x y z : α, (fun a b => decide (f b ≤ f a)) x y = true →
      (fun a b => decide (f b ≤ f a)) y z = true →
      (fun a b => decide (f b ≤ f a)) x z = true := by
    intro x y z hxy hyz
    simp only [decide_eq_true_eq] at *
    exact le_trans hyz hxy
  have htotal : ∀ x y : α, ((fun a b => decide (f b ≤ f a)) x y ||
      (fun a b => decide (f b ≤ f a)) y x) = true := by
    intro x y
    simp only [Bool.or_eq_true, decide_eq_true_eq]
    exact le_total (f y) (f x)
  have h := List.sorted_mergeSort htrans htotal l
  exact h.imp (fun hx => by simpa using hx)

lemma creatorScoreMap_none_iff (creators : List Creator) (aid : String) :
    creatorScoreMap creators aid = none ↔ ∀ cr ∈ creators, cr.id ≠ aid := by
  suffices h : ∀ acc : Option (ℝ × String),
      creators.foldl (fun acc c => if c.id = aid then some (c.score, c.reason) else acc)
        acc = none ↔
      acc = none ∧ ∀ cr ∈ creators, cr.id ≠ aid by
    simpa [creatorScoreMap] using h none
  induction creators with
  | nil => intro acc; simp
  | cons c cs ih =>
    intro acc
    simp only [List.foldl_cons]
    rw [ih]
    by_cases hc : c.id = aid
    · simp [hc]
    · simp only [if_neg hc, List.mem_cons]
      constructor
      · rintro ⟨ha, hall⟩
        exact ⟨ha, fun cr hcr => hcr.elim (fun he => he ▸ hc) (hall cr)⟩
      · rintro ⟨ha, hall⟩
        exact ⟨ha, fun cr hcr => hall cr (Or.inr hcr)⟩

/-- C4: `rankPosts` is a sorted-by-final-score-descending permutation of the
input posts each scored as base + engagement + recency, where the base score
and reason come from the creator map (`1` / `"default"` when the author is
not among the recommended creators — characterised by the final conjunct),
engagement is `likes * 1 + comments * 1.5`, recency is
`10 / (1 + ln (1 + hours since creation))`, and the reason is overwritten to
`"high_engagement"` exactly when the engagement term exceeds 10 and the
reason is still `"default"`. -/
theorem rankPosts_formula_and_sorted :
    ∀ (now : Int) (posts : List Post) (creators : List Creator),
      (rankPosts now posts creators).Perm (posts.map (fun p =>
        { toPost := p
          recommendationScore :=
            (match creatorScoreMap creators p.authorId with
              | some info => info.1
              | none => 1) +
            ((p.likes.length : ℝ) * 1 + (p.comments.length : ℝ) * 1.5) +
            10 / (1 + Real.log (1 + hoursSince now p))
          recommendationReason :=
            if (p.likes.length : ℝ) * 1 + (p.comments.length : ℝ) * 1.5 > 10 ∧
                (match creatorScoreMap creators p.authorId with
                  | some info => info.2
                  | none => "default") = "default"
            then "high_engagement"
            else match creatorScoreMap creators p.authorId with
              | some info => info.2
              | none => "default" })) ∧
      (rankPosts now posts creators).Sorted
        (fun x y => y.recommendationScore ≤ x.recommendationScore) ∧
      (∀ aid, creatorScoreMap creators aid = none ↔ ∀ cr ∈ creators, cr.id ≠ aid) := by
  intro now posts creators
  refine ⟨?_, ?_, ?_⟩
  · have hmap : posts.map (scorePost now creators) = posts.map (fun p =>
        ({ toPost := p
           recommendationScore :=
             (match creatorScoreMap creators p.authorId with
               | some info => info.1
               | none => 1) +
             ((p.likes.length : ℝ) * 1 + (p.comments.length : ℝ) * 1.5) +
             10 / (1 + Real.log (1 + hoursSince now p))
           recommendationReason :=
             if (p.likes.length : ℝ) * 1 + (p.comments.length : ℝ) * 1.5 > 10 ∧
                 (match creatorScoreMap creators p.authorId with
                   | some info => info.2
                   | none => "default") = "default"
             then "high_engagement"
             else match creatorScoreMap creators p.authorId with
               | some info => info.2
               | none => "default" } : RecommendedPost)) := by
      apply List.map_congr_left
      intro p hp
      cases h : creatorScoreMap creators p.authorId with
      | none => simp [scorePost, h]
      | some info => simp [scorePost, h]
    exact hmap ▸ List.mergeSort_perm (posts.map (scorePost now creators)) _
  · exact pairwise_mergeSort_key (fun r : RecommendedPost => r.recommendationScore)
      (posts.map (scorePost now creators))
  · exact fun aid => creatorScoreMap_none_iff creators aid

/-- Witness for C4 at concrete inputs: an empty creator list maps the sample
author to no entry, and the concrete ranked list is sorted. -/
theorem rankPosts_formula_and_sorted_witness :
    creatorScoreMap [] "author0" = none ∧
    (rankPosts 0 [examplePost] []).Sorted
      (fun x y => y.recommendationScore ≤ x.recommendationScore) := by
  have h := rankPosts_formula_and_sorted 0 [examplePost] []
  exact ⟨(h.2.2 "author0").mpr (by simp), h.2.1⟩

/-- C10: the ranking step neither drops, duplicates, nor invents posts — the
underlying posts of `rankPosts`' output are a permutation of the input list,
and every output element is exactly its own underlying post augmented by the
scoring step. -/
theorem rankPosts_permutation_of_input :
    ∀ (now : Int) (posts : List Post) (creators : List Creator),
      ((rankPosts now posts creators).map (fun r => r.toPost)).Perm posts ∧
      ∀ r ∈ rankPosts now posts creators, r = scorePost now creators r.toPost := by
  intro now posts creators
  constructor
  · have hp := (List.mergeSort_perm (posts.map (scorePost now creators))
      (fun a b => decide (b.recommendationScore ≤ a.recommendationScore))).map
      (fun r => r.toPost)
    have hm : (posts.map (scorePost now creators)).map (fun r => r.toPost) = posts := by
      rw [List.map_map]
      have hid : ∀ p ∈ posts, ((fun r => r.toPost) ∘ scorePost now creators) p = p := by
        intro p hp2
        rfl
      rw [List.map_congr_left hid]
      simp
    rw [hm] at hp
    exact hp
  · intro r hr
    have hr2 : r ∈ posts.map (scorePost now creators) :=
      (List.mergeSort_perm (posts.map (scorePost now creators))
        (fun a b => decide (b.recommendationScore ≤ a.recommendationScore))).mem_iff.mp hr
    rcases List.mem_map.mp hr2 with ⟨p, hp, rfl⟩
    rfl

/-- Witness for C10: a concrete singleton ranking, whose sole element is its
own post rescored. -/
theorem rankPosts_permutation_of_input_witness :
    scorePost 0 [] examplePost = scorePost 0 [] ((scorePost 0 [] examplePost).toPost) := by
  have h := (rankPosts_permutation_of_input 0 [examplePost] []).2
  apply h
  have hs : rankPosts 0 [examplePost] [] = [scorePost 0 [] examplePost] := by
    simp [rankPosts, List.mergeSort_singleton]
  rw [hs]
  exact List.mem_singleton.mpr rfl

/-! Helper lemmas about the graph traversals. -/

lemma mem_followees {g : GraphDB} {a x : String} :
    x ∈ followees g a ↔ followsB g a x = true := by
  simp only [followees, List.mem_map, List.mem_filter, followsB, decide_eq_true_eq]
  constructor
  · rintro ⟨⟨e1, e2⟩, ⟨he, h1⟩, h2⟩
    subst h1
    subst h2
    exact he
  · intro h
    exact ⟨(a, x), ⟨h, rfl⟩, rfl⟩

lemma mem_fofCandidates {g : GraphDB} {u x : String} :
    x ∈ fofCandidates g u ↔
      (∃ f, followsB g u f = true ∧ followsB g f x = true) ∧
      followsB g u x = false ∧ x ≠ u := by
  simp only [fofCandidates, List.mem_dedup, List.mem_filter, List.mem_flatMap,
    Bool.and_eq_true, Bool.not_eq_true', decide_eq_false_iff_not, mem_followees]

lemma mem_getFriendsOfFriends {g : GraphDB} {u : String} {r : FofEntry}
    (hr : r ∈ getFriendsOfFriends g u) :
    ∃ x ∈ fofCandidates g u, r = FofEntry.mk x (connectors g u x).length := by
  have h1 : r ∈ ((fofCandidates g u).map
      (fun x => FofEntry.mk x (connectors g u x).length)).mergeSort
      (fun a b => decide (b.mutualFriends ≤ a.mutualFriends)) :=
    List.mem_of_mem_take hr
  have h2 := (List.mergeSort_perm _ _).mem_iff.mp h1
  rcases List.mem_map.mp h2 with ⟨x, hx, rfl⟩
  exact ⟨x, hx, rfl⟩

lemma mem_stepOnce {g : GraphDB} {xs : List String} {b : String} :
    b ∈ stepOnce g xs ↔ ∃ x ∈ xs, followsB g x b = true := by
  simp [stepOnce, List.mem_dedup, List.mem_flatMap, mem_followees]

lemma mem_reachSteps {g : GraphDB} {a : String} :
    ∀ (n : Nat) (b : String), b ∈ reachSteps g a n ↔ hasWalk g a b n := by
  intro n
  induction n with
  | zero =>
    intro b
    show b ∈ [a] ↔ a = b
    simp [eq_comm]
  | succ m ih =>
    intro b
    show b ∈ stepOnce g (reachSteps g a m) ↔ ∃ c, hasWalk g a c m ∧ followsB g c b = true
    rw [mem_stepOnce]
    constructor
    · rintro ⟨c, hc, hf⟩
      exact ⟨c, (ih c).mp hc, hf⟩
    · rintro ⟨c, hc, hf⟩
      exact ⟨c, (ih c).mpr hc, hf⟩

/-- C6: every result of the friends-of-friends query is distinct from the
subject and not already followed by the subject; each result is two-hop
reachable and carries the count of its distinct intermediate connectors; the
results are sorted by that count descending, at most 10 are returned, and —
whenever at most 10 candidates exist — every excluded-and-distinct two-hop
target occurs among the results. -/
theorem friendsOfFriends_invariants :
    ∀ (g : GraphDB) (u : String),
      (∀ r ∈ getFriendsOfFriends g u,
        r.id ≠ u ∧ followsB g u r.id = false ∧
        (∃ f, followsB g u f = true ∧ followsB g f r.id = true) ∧
        r.mutualFriends =
          ((followees g u).filter (fun f => followsB g f r.id)).toFinset.card) ∧
      (getFriendsOfFriends g u).length ≤ 10 ∧
      (getFriendsOfFriends g u).Sorted (fun x y => y.mutualFriends ≤ x.mutualFriends) ∧
      (∀ x, (∃ f, followsB g u f = true ∧ followsB g f x = true) →
        followsB g u x = false → x ≠ u → (fofCandidates g u).length ≤ 10 →
        ∃ r ∈ getFriendsOfFriends g u, r.id = x) := by
  intro g u
  refine ⟨?_, ?_, ?_, ?_⟩
  · intro r hr
    rcases mem_getFriendsOfFriends hr with ⟨x, hx, rfl⟩
    rcases mem_fofCandidates.mp hx with ⟨hex, hnf, hne⟩
    refine ⟨hne, hnf, hex, ?_⟩
    show (connectors g u x).length = _
    rw [List.card_toFinset]
    rfl
  · exact List.length_take_le 10 _
  · exact List.Pairwise.sublist (List.take_sublist 10 _)
      (pairwise_mergeSort_key (fun e : FofEntry => e.mutualFriends)
        ((fofCandidates g u).map (fun x => FofEntry.mk x (connectors g u x).length)))
  · intro x hex hnf hne hlen
    have hx : x ∈ fofCandidates g u := mem_fofCandidates.mpr ⟨hex, hnf, hne⟩
    have hmem : FofEntry.mk x (connectors g u x).length ∈
        (fofCandidates g u).map (fun y => FofEntry.mk y (connectors g u y).length) :=
      List.mem_map.mpr ⟨x, hx, rfl⟩
    have hmem2 := (List.mergeSort_perm ((fofCandidates g u).map
      (fun y => FofEntry.mk y (connectors g u y).length))
      (fun a b => decide (b.mutualFriends ≤ a.mutualFriends))).mem_iff.mpr hmem
    have hfull : ((((fofCandidates g u).map
        (fun y => FofEntry.mk y (connectors g u y).length)).mergeSort
        (fun a b => decide (b.mutualFriends ≤ a.mutualFriends))).take 10) =
        (((fofCandidates g u).map
          (fun y => FofEntry.mk y (connectors g u y).length)).mergeSort
          (fun a b => decide (b.mutualFriends ≤ a.mutualFriends))) := by
      apply List.take_of_length_le
      rw [List.length_mergeSort, List.length_map]
      exact hlen
    refine ⟨FofEntry.mk x (connectors g u x).length, ?_, rfl⟩
    show FofEntry.mk x (connectors g u x).length ∈
      ((((fofCandidates g u).map
        (fun y => FofEntry.mk y (connectors g u y).length)).mergeSort
        (fun a b => decide (b.mutualFriends ≤ a.mutualFriends))).take 10)
    rw [hfull]
    exact hmem2

/-- Witness for C6 on the chain `a → b → c`: `c` is a friends-of-friends
result for `a`. -/
theorem friendsOfFriends_invariants_witness :
    ∃ r ∈ getFriendsOfFriends exChain "a", r.id = "c" := by
  have h := (friendsOfFriends_invariants exChain "a").2.2.2 "c"
  exact h ⟨"b", by decide, by decide⟩ (by decide) (by decide) (by decide)

/-- C7: `socialDistance(a, a)` is 0 and issues no store query; otherwise one
query is issued and the result is the shortest directed FOLLOWS walk length
when one of length at most 3 exists (1 when `a` directly follows `b`), and
the `Infinity` sentinel (`⊤`) when no walk of length at most 3 exists. -/
theorem socialDistance_spec :
    ∀ (g : GraphDB) (a b : String),
      getSocialDistance g a a = (0, 0) ∧
      (a ≠ b → (getSocialDistance g a b).2 = 1) ∧
      (a ≠ b → followsB g a b = true → (getSocialDistance g a b).1 = 1) ∧
      (a ≠ b → ∀ k : Nat, k ≤ 3 → hasWalk g a b k →
        (∀ j, j < k → ¬ hasWalk g a b j) → (getSocialDistance g a b).1 = (k : ℕ∞)) ∧
      (a ≠ b → (∀ k : Nat, k ≤ 3 → ¬ hasWalk g a b k) →
        (getSocialDistance g a b).1 = ⊤) := by
  intro g a b
  refine ⟨?_, ?_, ?_, ?_, ?_⟩
  · simp [getSocialDistance]
  · intro hab
    simp [getSocialDistance, hab]
  · intro hab hf
    have h1 : b ∈ reachSteps g a 1 := (mem_reachSteps 1 b).mpr ⟨a, rfl, hf⟩
    simp [getSocialDistance, hab, h1]
  · intro hab k hk3 hwalk hmin
    interval_cases k
    · exact absurd hwalk hab
    · have h1 : b ∈ reachSteps g a 1 := (mem_reachSteps 1 b).mpr hwalk
      simp [getSocialDistance, hab, h1]
    · have h2 : b ∈ reachSteps g a 2 := (mem_reachSteps 2 b).mpr hwalk
      have hn1 : b ∉ reachSteps g a 1 :=
        fun hm => hmin 1 (by omega) ((mem_reachSteps 1 b).mp hm)
      simp [getSocialDistance, hab, h2, hn1]
    · have h3 : b ∈ reachSteps g a 3 := (mem_reachSteps 3 b).mpr hwalk
      have hn1 : b ∉ reachSteps g a 1 :=
        fun hm => hmin 1 (by omega) ((mem_reachSteps 1 b).mp hm)
      have hn2 : b ∉ reachSteps g a 2 :=
        fun hm => hmin 2 (by omega) ((mem_reachSteps 2 b).mp hm)
      simp [getSocialDistance, hab, h3, hn1, hn2]
  · intro hab hnone
    have hn1 : b ∉ reachSteps g a 1 :=
      fun hm => hnone 1 (by omega) ((mem_reachSteps 1 b).mp hm)
    have hn2 : b ∉ reachSteps g a 2 :=
      fun hm => hnone 2 (by omega) ((mem_reachSteps 2 b).mp hm)
    have hn3 : b ∉ reachSteps g a 3 :=
      fun hm => hnone 3 (by omega) ((mem_reachSteps 3 b).mp hm)
    simp [getSocialDistance, hab, hn1, hn2, hn3]

/-- Witness for C7 on the chain `a → b → c → d`: distance 0 to self with no
query, direct follow at distance 1, three hops to `d` with minimality, and
the sentinel for an absent node. -/
theorem socialDistance_spec_witness :
    getSocialDistance exChain "a" "a" = (0, 0) ∧
    (getSocialDistance exChain "a" "b").1 = 1 ∧
    (getSocialDistance exChain "a" "d").1 = (3 : ℕ∞) ∧
    (getSocialDistance exChain "a" "z").1 = ⊤ := by
  refine ⟨(socialDistance_spec exChain "a" "a").1, ?_, ?_, ?_⟩
  · exact (socialDistance_spec exChain "a" "b").2.2.1 (by decide) (by decide)
  · apply (socialDistance_spec exChain "a" "d").2.2.2.1 (by decide) 3 (by omega)
    · exact (mem_reachSteps 3 "d").mp (by decide)
    · intro j hj hw
      have hmem := (mem_reachSteps j "d").mpr hw
      interval_cases j <;> revert hmem <;> decide
  · apply (socialDistance_spec exChain "a" "z").2.2.2.2 (by decide)
    intro k hk hw
    have hmem := (mem_reachSteps k "z").mpr hw
    interval_cases k <;> revert hmem <;> decide

/-- C8: the trending score divides the engagement sum
`likes + comments * 1.5` by `hours ^ 0.8` only when the post's age in hours
is strictly positive and falls back to the raw engagement sum at age 0, and
every post scored by the trending recompute path carries exactly this score
(with reason `"trending"`). -/
theorem trendingScore_division_guard :
    ∀ (now : Int) (p : Post),
      (0 < hoursSince now p →
        trendingScore now p =
          ((p.likes.length : ℝ) + (p.comments.length : ℝ) * 1.5) /
            (hoursSince now p) ^ (0.8 : ℝ)) ∧
      (hoursSince now p = 0 →
        trendingScore now p = (p.likes.length : ℝ) + (p.comments.length : ℝ) * 1.5) ∧
      (∀ (env : FetchEnv) (st : CacheMap) (count : Nat) (excludePostIds : List String)
        (posts : List Post) (r : RecommendedPost),
        env.trendingFetch = .ok posts →
        r ∈ (trendingRecompute env now st count excludePostIds).1 →
        r.recommendationScore = trendingScore now r.toPost ∧
        r.recommendationReason = "trending") := by
  intro now p
  refine ⟨?_, ?_, ?_⟩
  · intro h
    simp [trendingScore, h]
  · intro h
    simp [trendingScore, h]
  · intro env st count excludePostIds posts r hfetch hr
    have hres : (trendingRecompute env now st count excludePostIds).1 =
        (((if 0 < excludePostIds.length then
            posts.filter (fun post => !(excludePostIds.contains post.id)) else posts).map
          (scoreTrendingPost now)).mergeSort
          (fun a b => decide (b.recommendationScore ≤ a.recommendationScore))).take count := by
      simp [trendingRecompute, hfetch]
    rw [hres] at hr
    have hr2 := (List.mergeSort_perm _ _).mem_iff.mp (List.mem_of_mem_take hr)
    rcases List.mem_map.mp hr2 with ⟨q, hq, rfl⟩
    exact ⟨rfl, rfl⟩

/-- Witness for C8: a brand-new post (age 0) scores its raw engagement sum, a
one-hour-old post divides by `1 ^ 0.8 = 1`, and a concretely recomputed
trending entry carries the `"trending"` reason. -/
theorem trendingScore_division_guard_witness :
    trendingScore 0 examplePost = 1 ∧
    trendingScore 0 examplePostOld = 1 ∧
    (scoreTrendingPost 0 examplePost).recommendationReason = "trending" := by
  have hz : hoursSince 0 examplePost = 0 := by
    simp [hoursSince, examplePost]
  have h1 : hoursSince 0 examplePostOld = 1 := by
    norm_num [hoursSince, examplePostOld]
  refine ⟨?_, ?_, ?_⟩
  · rw [(trendingScore_division_guard 0 examplePost).2.1 hz]
    norm_num [examplePost]
  · rw [(trendingScore_division_guard 0 examplePostOld).1 (by rw [h1]; norm_num), h1,
      Real.one_rpow]
    norm_num [examplePostOld]
  · have hmem : scoreTrendingPost 0 examplePost ∈ (trendingRecompute trendEnv 0 [] 10 []).1 := by
      have hres : (trendingRecompute trendEnv 0 [] 10 []).1 =
          [scoreTrendingPost 0 examplePost] := by
        simp [trendingRecompute, trendEnv, List.mergeSort_singleton]
      rw [hres]
      exact List.mem_singleton.mpr rfl
    exact ((trendingScore_division_guard 0 examplePost).2.2 trendEnv [] 10 [] [examplePost]
      (scoreTrendingPost 0 examplePost) rfl hmem).2

end SocialApp
